import Mathlib

/-!
Verification of the sendrawtx server's core components against its
specification.  Each C module that the claims touch is shallowly embedded
as pure Lean definitions: struct fields become structure fields, in-place
mutation becomes explicit state passing, C `int` counters become `Int`,
and the C `double` arithmetic of the token bucket is carried out over `ℚ`.
-/

namespace SendRawTx

/-! ## RequestTier (include/reader.h) -/

/-- C source `RequestTier` enum: TIER_NORMAL = 0, TIER_LARGE = 1, TIER_HUGE = 2. -/
inductive RequestTier where
  | normal
  | large
  | huge
deriving DecidableEq, Repr

/-- Numeric value of the C enum constant. -/
def RequestTier.val : RequestTier → Nat
  | .normal => 0
  | .large => 1
  | .huge => 2

/-! ## SlotManager (src/slot_manager.c) -/

/-- The `SlotManager` struct: per-tier current/max counters (C `int`). -/
structure SlotManager where
  normal_current : Int
  normal_max : Int
  large_current : Int
  large_max : Int
  huge_current : Int
  huge_max : Int
deriving DecidableEq, Repr

/-- C source `slot_manager_init`: all `current` counters start at 0. -/
def slot_manager_init (normal_max large_max huge_max : Int) : SlotManager :=
  { normal_current := 0, normal_max := normal_max
    large_current := 0, large_max := large_max
    huge_current := 0, huge_max := huge_max }

/-- C source `slot_manager_current`: read the per-tier used counter. -/
def slot_manager_current (sm : SlotManager) : RequestTier → Int
  | .normal => sm.normal_current
  | .large => sm.large_current
  | .huge => sm.huge_current

/-- C source `slot_manager_max`: read the per-tier capacity. -/
def slot_manager_max (sm : SlotManager) : RequestTier → Int
  | .normal => sm.normal_max
  | .large => sm.large_max
  | .huge => sm.huge_max

/-- C source `slot_manager_acquire`: increment the tier's counter iff it is below
the tier's max; returns 1 (success) or 0 (no slots). -/
def slot_manager_acquire (sm : SlotManager) (tier : RequestTier) :
    Bool × SlotManager :=
  match tier with
  | .normal =>
      if sm.normal_current ≥ sm.normal_max then (false, sm)
      else (true, { sm with normal_current := sm.normal_current + 1 })
  | .large =>
      if sm.large_current ≥ sm.large_max then (false, sm)
      else (true, { sm with large_current := sm.large_current + 1 })
  | .huge =>
      if sm.huge_current ≥ sm.huge_max then (false, sm)
      else (true, { sm with huge_current := sm.huge_current + 1 })

/-- C source `slot_manager_release`: decrement the tier's counter iff it is
strictly positive. -/
def slot_manager_release (sm : SlotManager) (tier : RequestTier) : SlotManager :=
  match tier with
  | .normal =>
      if sm.normal_current > 0 then
        { sm with normal_current := sm.normal_current - 1 }
      else sm
  | .large =>
      if sm.large_current > 0 then
        { sm with large_current := sm.large_current - 1 }
      else sm
  | .huge =>
      if sm.huge_current > 0 then
        { sm with huge_current := sm.huge_current - 1 }
      else sm

/-- C source `slot_manager_promote`: same tier is a no-op success; demotion is
refused; otherwise acquire the target tier first and only on success
release the source tier. -/
def slot_manager_promote (sm : SlotManager) (from_tier to_tier : RequestTier) :
    Bool × SlotManager :=
  if from_tier = to_tier then (true, sm)
  else if to_tier.val < from_tier.val then (false, sm)
  else
    match slot_manager_acquire sm to_tier with
    | (false, sm1) => (false, sm1)
    | (true, sm1) => (true, slot_manager_release sm1 from_tier)

/-- C source `slot_manager_total_connections`: sum of the three used counters. -/
def slot_manager_total_connections (sm : SlotManager) : Int :=
  sm.normal_current + sm.large_current + sm.huge_current

/-! ### Helper lemmas about the slot manager -/

theorem acquire_spec (sm : SlotManager) (t : RequestTier) :
    slot_manager_acquire sm t =
      if slot_manager_current sm t ≥ slot_manager_max sm t then (false, sm)
      else (true,
        match t with
        | .normal => { sm with normal_current := sm.normal_current + 1 }
        | .large => { sm with large_current := sm.large_current + 1 }
        | .huge => { sm with huge_current := sm.huge_current + 1 }) := by
  cases t <;> rfl

theorem acquire_fail_state (sm : SlotManager) (t : RequestTier)
    (h : slot_manager_current sm t ≥ slot_manager_max sm t) :
    slot_manager_acquire sm t = (false, sm) := by
  cases t <;> simp_all [slot_manager_acquire, slot_manager_current,
    slot_manager_max]

theorem acquire_succ_counters (sm : SlotManager) (t : RequestTier)
    (h : slot_manager_current sm t < slot_manager_max sm t) :
    (slot_manager_acquire sm t).1 = true ∧
    slot_manager_current (slot_manager_acquire sm t).2 t =
      slot_manager_current sm t + 1 ∧
    ∀ u, u ≠ t →
      slot_manager_current (slot_manager_acquire sm t).2 u =
        slot_manager_current sm u := by
  cases t with
  | normal =>
      simp only [slot_manager_current, slot_manager_max] at h
      refine ⟨?_, ?_, ?_⟩
      · simp [slot_manager_acquire, not_le.mpr h]
      · simp [slot_manager_acquire, slot_manager_current, not_le.mpr h]
      · intro u hu
        cases u with
        | normal => exact absurd rfl hu
        | large => simp [slot_manager_acquire, slot_manager_current, not_le.mpr h]
        | huge => simp [slot_manager_acquire, slot_manager_current, not_le.mpr h]
  | large =>
      simp only [slot_manager_current, slot_manager_max] at h
      refine ⟨?_, ?_, ?_⟩
      · simp [slot_manager_acquire, not_le.mpr h]
      · simp [slot_manager_acquire, slot_manager_current, not_le.mpr h]
      · intro u hu
        cases u with
        | large => exact absurd rfl hu
        | normal => simp [slot_manager_acquire, slot_manager_current, not_le.mpr h]
        | huge => simp [slot_manager_acquire, slot_manager_current, not_le.mpr h]
  | huge =>
      simp only [slot_manager_current, slot_manager_max] at h
      refine ⟨?_, ?_, ?_⟩
      · simp [slot_manager_acquire, not_le.mpr h]
      · simp [slot_manager_acquire, slot_manager_current, not_le.mpr h]
      · intro u hu
        cases u with
        | huge => exact absurd rfl hu
        | normal => simp [slot_manager_acquire, slot_manager_current, not_le.mpr h]
        | large => simp [slot_manager_acquire, slot_manager_current, not_le.mpr h]

theorem release_counters (sm : SlotManager) (t : RequestTier) :
    (slot_manager_current (slot_manager_release sm t) t =
      if slot_manager_current sm t > 0 then slot_manager_current sm t - 1
      else slot_manager_current sm t) ∧
    ∀ u, u ≠ t →
      slot_manager_current (slot_manager_release sm t) u =
        slot_manager_current sm u := by
  cases t with
  | normal =>
      constructor
      · by_cases h : 0 < sm.normal_current <;>
          simp [slot_manager_release, slot_manager_current, h]
      · intro u hu
        cases u with
        | normal => exact absurd rfl hu
        | large =>
            by_cases h : 0 < sm.normal_current <;>
              simp [slot_manager_release, slot_manager_current, h]
        | huge =>
            by_cases h : 0 < sm.normal_current <;>
              simp [slot_manager_release, slot_manager_current, h]
  | large =>
      constructor
      · by_cases h : 0 < sm.large_current <;>
          simp [slot_manager_release, slot_manager_current, h]
      · intro u hu
        cases u with
        | large => exact absurd rfl hu
        | normal =>
            by_cases h : 0 < sm.large_current <;>
              simp [slot_manager_release, slot_manager_current, h]
        | huge =>
            by_cases h : 0 < sm.large_current <;>
              simp [slot_manager_release, slot_manager_current, h]
  | huge =>
      constructor
      · by_cases h : 0 < sm.huge_current <;>
          simp [slot_manager_release, slot_manager_current, h]
      · intro u hu
        cases u with
        | huge => exact absurd rfl hu
        | normal =>
            by_cases h : 0 < sm.huge_current <;>
              simp [slot_manager_release, slot_manager_current, h]
        | large =>
            by_cases h : 0 < sm.huge_current <;>
              simp [slot_manager_release, slot_manager_current, h]

theorem acquire_max_eq (sm : SlotManager) (t u : RequestTier) :
    slot_manager_max (slot_manager_acquire sm t).2 u = slot_manager_max sm u := by
  cases t <;> cases u <;>
    simp [slot_manager_acquire, slot_manager_max] <;>
    split <;> rfl

theorem release_max_eq (sm : SlotManager) (t u : RequestTier) :
    slot_manager_max (slot_manager_release sm t) u = slot_manager_max sm u := by
  cases t <;> cases u <;>
    simp [slot_manager_release, slot_manager_max] <;>
    split <;> rfl

/-! ### Claim C1 -/

/-- C1: for a genuine promotion (`from_tier < to_tier`), `promote`
acquires the target tier first — succeeding and incrementing
`used[to]` iff `used[to] < cap[to]` — and only then releases the source
tier, decrementing `used[from]` (when it is positive, as it is whenever
the caller holds a slot there); if the target acquire fails, `promote`
returns failure and every counter is left exactly as it was. -/
theorem C1_promote_acquire_then_release (sm : SlotManager)
    (from_tier to_tier : RequestTier)
    (hlt : from_tier.val < to_tier.val) :
    (slot_manager_current sm to_tier < slot_manager_max sm to_tier →
      (slot_manager_promote sm from_tier to_tier).1 = true ∧
      (slot_manager_promote sm from_tier to_tier).2 =
        slot_manager_release (slot_manager_acquire sm to_tier).2 from_tier ∧
      slot_manager_current (slot_manager_promote sm from_tier to_tier).2 to_tier =
        slot_manager_current sm to_tier + 1 ∧
      (0 < slot_manager_current sm from_tier →
        slot_manager_current (slot_manager_promote sm from_tier to_tier).2 from_tier =
          slot_manager_current sm from_tier - 1)) ∧
    (slot_manager_current sm to_tier ≥ slot_manager_max sm to_tier →
      slot_manager_promote sm from_tier to_tier = (false, sm)) := by
  have hne : from_tier ≠ to_tier := by
    intro h; subst h; exact lt_irrefl _ hlt
  have hnotlt : ¬ to_tier.val < from_tier.val := by omega
  constructor
  · intro hcap
    have hacq := acquire_succ_counters sm to_tier hcap
    have hpromote : slot_manager_promote sm from_tier to_tier =
        (true, slot_manager_release (slot_manager_acquire sm to_tier).2 from_tier) := by
      unfold slot_manager_promote
      rw [if_neg hne, if_neg hnotlt]
      have : slot_manager_acquire sm to_tier =
          (true, (slot_manager_acquire sm to_tier).2) := by
        cases hval : slot_manager_acquire sm to_tier with
        | mk b s =>
          have : b = true := by
            have := hacq.1; rw [hval] at this; exact this
          simp [this]
      rw [this]
    refine ⟨by rw [hpromote], by rw [hpromote], ?_, ?_⟩
    · rw [hpromote]
      have hrel := (release_counters (slot_manager_acquire sm to_tier).2 from_tier).2
        to_tier (Ne.symm hne)
      simp only [hrel]
      exact hacq.2.1
    · intro hpos
      rw [hpromote]
      have hfrom_eq : slot_manager_current (slot_manager_acquire sm to_tier).2 from_tier =
          slot_manager_current sm from_tier := hacq.2.2 from_tier hne
      have hrel := (release_counters (slot_manager_acquire sm to_tier).2 from_tier).1
      rw [hfrom_eq] at hrel
      rw [hrel, if_pos hpos]
  · intro hfull
    unfold slot_manager_promote
    rw [if_neg hne, if_neg hnotlt]
    rw [acquire_fail_state sm to_tier hfull]

/-- Witness for C1 at a concrete state: one LARGE slot used, HUGE has
room, promotion LARGE→HUGE succeeds and moves the counters. -/
theorem C1_promote_acquire_then_release_witness :
    let sm : SlotManager := { normal_current := 0, normal_max := 4
                              large_current := 1, large_max := 2
                              huge_current := 0, huge_max := 1 }
    (slot_manager_current sm .huge < slot_manager_max sm .huge →
      (slot_manager_promote sm .large .huge).1 = true ∧
      (slot_manager_promote sm .large .huge).2 =
        slot_manager_release (slot_manager_acquire sm .huge).2 .large ∧
      slot_manager_current (slot_manager_promote sm .large .huge).2 .huge =
        slot_manager_current sm .huge + 1 ∧
      (0 < slot_manager_current sm .large →
        slot_manager_current (slot_manager_promote sm .large .huge).2 .large =
          slot_manager_current sm .large - 1)) ∧
    (slot_manager_current sm .huge ≥ slot_manager_max sm .huge →
      slot_manager_promote sm .large .huge = (false, sm)) :=
  C1_promote_acquire_then_release _ .large .huge (by decide)

/-! ### Claim C2 -/

/-- A call against the slot manager: acquire, release or promote. -/
inductive SlotCall where
  | acquire (t : RequestTier)
  | release (t : RequestTier)
  | promote (from_tier to_tier : RequestTier)
deriving DecidableEq, Repr

/-- Apply one call, discarding the success flag. -/
def slotStep (sm : SlotManager) : SlotCall → SlotManager
  | .acquire t => (slot_manager_acquire sm t).2
  | .release t => slot_manager_release sm t
  | .promote f t => (slot_manager_promote sm f t).2

/-- The per-tier counter invariant `0 ≤ used[t] ≤ cap[t]`. -/
def SlotInv (sm : SlotManager) : Prop :=
  ∀ t, 0 ≤ slot_manager_current sm t ∧
    slot_manager_current sm t ≤ slot_manager_max sm t

theorem slotInv_acquire (sm : SlotManager) (t : RequestTier) (h : SlotInv sm) :
    SlotInv (slot_manager_acquire sm t).2 := by
  intro u
  have hmax := acquire_max_eq sm t u
  by_cases hc : slot_manager_current sm t < slot_manager_max sm t
  · have hs := acquire_succ_counters sm t hc
    by_cases hu : u = t
    · subst hu
      rw [hmax, hs.2.1]
      have := h u
      omega
    · rw [hmax, hs.2.2 u hu]
      exact h u
  · rw [acquire_fail_state sm t (not_lt.mp hc)]
    exact h u

theorem slotInv_release (sm : SlotManager) (t : RequestTier) (h : SlotInv sm) :
    SlotInv (slot_manager_release sm t) := by
  intro u
  have hmax := release_max_eq sm t u
  have hrel := release_counters sm t
  by_cases hu : u = t
  · subst hu
    rw [hmax, hrel.1]
    have := h u
    split <;> omega
  · rw [hmax, hrel.2 u hu]
    exact h u

theorem slotInv_promote (sm : SlotManager) (f t : RequestTier) (h : SlotInv sm) :
    SlotInv (slot_manager_promote sm f t).2 := by
  unfold slot_manager_promote
  split
  · exact h
  · split
    · exact h
    · cases hval : slot_manager_acquire sm t with
      | mk b s =>
        have hs : s = (slot_manager_acquire sm t).2 := by rw [hval]
        cases b
        · simpa [hval] using (hs ▸ slotInv_acquire sm t h)
        · simp only [hval]
          exact slotInv_release _ f (hs ▸ slotInv_acquire sm t h)

theorem slotInv_foldl (sm : SlotManager) (calls : List SlotCall)
    (h : SlotInv sm) : SlotInv (calls.foldl slotStep sm) := by
  induction calls generalizing sm with
  | nil => exact h
  | cons c rest ih =>
      rw [List.foldl_cons]
      refine ih _ ?_
      cases c with
      | acquire t => exact slotInv_acquire sm t h
      | release t => exact slotInv_release sm t h
      | promote f t => exact slotInv_promote sm f t h

/-- C2: for every sequence of acquire/release/promote calls applied to a
slot manager initialised with non-negative capacities, after each call
(and in particular after the whole sequence) every tier `t` satisfies
`0 ≤ used[t] ≤ cap[t]`. -/
theorem C2_slot_counters_bounded (nm lm hm : Int)
    (hn : 0 ≤ nm) (hl : 0 ≤ lm) (hh : 0 ≤ hm)
    (calls : List SlotCall) :
    SlotInv (calls.foldl slotStep (slot_manager_init nm lm hm)) := by
  refine slotInv_foldl _ calls ?_
  intro t
  cases t <;>
    simp [slot_manager_init, slot_manager_current, slot_manager_max,
      hn, hl, hh]

/-- Witness for C2: a concrete call sequence (including a failing
acquire, an underflowing release and a promotion) keeps all counters in
bounds. -/
theorem C2_slot_counters_bounded_witness :
    SlotInv (([SlotCall.acquire .normal, .acquire .normal, .release .large,
        .promote .normal .huge, .release .normal] : List SlotCall).foldl
      slotStep (slot_manager_init 1 1 1)) :=
  C2_slot_counters_bounded 1 1 1 (by decide) (by decide) (by decide) _

/-! ## Connection tier downgrade (src/connection.c, downgrade_tier_to_normal) -/

/-- The slice of the `Connection` struct that the downgrade path touches. -/
structure ConnSlots where
  current_tier : RequestTier
  slot_held : Bool
deriving DecidableEq, Repr

/-- A primitive slot-manager operation performed by the connection,
recorded in program order. -/
inductive SlotEvent where
  | release (t : RequestTier)
  | acquireOk (t : RequestTier)
  | acquireFail (t : RequestTier)
deriving DecidableEq, Repr

/-- C source `downgrade_tier_to_normal`: if the connection holds a LARGE/HUGE
slot, release it, then try to acquire a NORMAL slot; on failure try to
re-acquire the old tier, and if that also fails clear `slot_held`.
The third component records the slot-manager calls in program order. -/
def downgrade_tier_to_normal (conn : ConnSlots) (sm : SlotManager) :
    ConnSlots × SlotManager × List SlotEvent :=
  if conn.slot_held = false ∨ conn.current_tier = .normal then
    (conn, sm, [])
  else
    let sm1 := slot_manager_release sm conn.current_tier
    match slot_manager_acquire sm1 .normal with
    | (true, sm2) =>
        ({ conn with current_tier := .normal }, sm2,
         [.release conn.current_tier, .acquireOk .normal])
    | (false, sm2) =>
        match slot_manager_acquire sm2 conn.current_tier with
        | (true, sm3) =>
            (conn, sm3,
             [.release conn.current_tier, .acquireFail .normal,
              .acquireOk conn.current_tier])
        | (false, sm3) =>
            ({ conn with slot_held := false }, sm3,
             [.release conn.current_tier, .acquireFail .normal,
              .acquireFail conn.current_tier])

/-- Does the trace start by acquiring the NORMAL tier (before any
release), as the claim's "acquire(NORMAL) then release(old)" requires? -/
def acquiresNormalFirst (tr : List SlotEvent) : Bool :=
  match tr.head? with
  | some (.acquireOk .normal) => true
  | some (.acquireFail .normal) => true
  | _ => false

/-! ### Claim C3 -/

/-- C3 counterexample: at a reachable state (connection holding the only
HUGE slot, NORMAL tier free), the downgrade's first slot-manager call is
`release(HUGE)` — the old slot is given up before the NORMAL slot is
acquired, so the transfer is not "acquire(NORMAL) then release(old)" and
there is a moment at which the connection holds no counted slot. -/
theorem C3_counterexample :
    let conn : ConnSlots := { current_tier := .huge, slot_held := true }
    let sm : SlotManager := { normal_current := 0, normal_max := 4
                              large_current := 0, large_max := 2
                              huge_current := 1, huge_max := 1 }
    (downgrade_tier_to_normal conn sm).2.2 =
      [.release .huge, .acquireOk .normal] ∧
    acquiresNormalFirst (downgrade_tier_to_normal conn sm).2.2 = false ∧
    slot_manager_total_connections
        (slot_manager_release sm conn.current_tier) = 0 := by
  refine ⟨?_, ?_, ?_⟩ <;> decide
/-- C3 amended: post-ingest demotion of a connection holding a LARGE or
HUGE slot first releases the old tier and only then acquires a NORMAL
slot (so the connection momentarily holds no counted slot); if the
NORMAL acquire fails the old tier is re-acquired as a rollback, and only
if that rollback also fails is `slot_held` cleared. -/
theorem C3_amended_downgrade_release_then_acquire (conn : ConnSlots)
    (sm : SlotManager) (hheld : conn.slot_held = true)
    (htier : conn.current_tier ≠ .normal) :
    (downgrade_tier_to_normal conn sm).2.2.head? =
      some (.release conn.current_tier) ∧
    (slot_manager_current (slot_manager_release sm conn.current_tier) .normal <
        slot_manager_max (slot_manager_release sm conn.current_tier) .normal →
      (downgrade_tier_to_normal conn sm).1 =
        { conn with current_tier := .normal } ∧
      (downgrade_tier_to_normal conn sm).2.1 =
        (slot_manager_acquire (slot_manager_release sm conn.current_tier)
          .normal).2 ∧
      (downgrade_tier_to_normal conn sm).2.2 =
        [.release conn.current_tier, .acquireOk .normal]) ∧
    (slot_manager_current (slot_manager_release sm conn.current_tier) .normal ≥
        slot_manager_max (slot_manager_release sm conn.current_tier) .normal →
      (slot_manager_current (slot_manager_release sm conn.current_tier)
          conn.current_tier <
        slot_manager_max (slot_manager_release sm conn.current_tier)
          conn.current_tier →
        (downgrade_tier_to_normal conn sm).1 = conn ∧
        (downgrade_tier_to_normal conn sm).2.1 =
          (slot_manager_acquire (slot_manager_release sm conn.current_tier)
            conn.current_tier).2) ∧
      (slot_manager_current (slot_manager_release sm conn.current_tier)
          conn.current_tier ≥
        slot_manager_max (slot_manager_release sm conn.current_tier)
          conn.current_tier →
        (downgrade_tier_to_normal conn sm).1 =
          { conn with slot_held := false } ∧
        (downgrade_tier_to_normal conn sm).2.1 =
          slot_manager_release sm conn.current_tier)) := by
  have hcond : ¬ (conn.slot_held = false ∨ conn.current_tier = .normal) := by
    simp [hheld, htier]
  refine ⟨?_, ?_, ?_⟩
  · simp only [downgrade_tier_to_normal, if_neg hcond]
    rcases hacq : slot_manager_acquire (slot_manager_release sm conn.current_tier)
        .normal with ⟨b, sm2⟩
    cases b
    · rcases hacq2 : slot_manager_acquire sm2 conn.current_tier with ⟨b2, sm3⟩
      cases b2 <;> simp [hacq, hacq2]
    · simp [hacq]
  · intro hroom
    have hs := acquire_succ_counters (slot_manager_release sm conn.current_tier)
      .normal hroom
    rcases hval : slot_manager_acquire (slot_manager_release sm conn.current_tier)
        .normal with ⟨b, sm2⟩
    have hb : b = true := by have := hs.1; rw [hval] at this; exact this
    subst hb
    simp only [downgrade_tier_to_normal, if_neg hcond, hval]
    trivial
  · intro hfull
    have hacq : slot_manager_acquire (slot_manager_release sm conn.current_tier)
        .normal = (false, slot_manager_release sm conn.current_tier) :=
      acquire_fail_state _ .normal hfull
    constructor
    · intro hroom2
      have hs := acquire_succ_counters (slot_manager_release sm conn.current_tier)
        conn.current_tier hroom2
      rcases hval : slot_manager_acquire (slot_manager_release sm conn.current_tier)
          conn.current_tier with ⟨b, sm3⟩
      have hb : b = true := by have := hs.1; rw [hval] at this; exact this
      subst hb
      simp only [downgrade_tier_to_normal, if_neg hcond, hacq, hval]
      trivial
    · intro hfull2
      have hacq2 : slot_manager_acquire (slot_manager_release sm conn.current_tier)
          conn.current_tier =
          (false, slot_manager_release sm conn.current_tier) :=
        acquire_fail_state _ conn.current_tier hfull2
      simp only [downgrade_tier_to_normal, if_neg hcond, hacq, hacq2]
      trivial

/-- Witness for the amended C3 at a concrete state: HUGE slot held,
NORMAL tier full, rollback re-acquires the HUGE slot. -/
theorem C3_amended_downgrade_release_then_acquire_witness :
    (downgrade_tier_to_normal ⟨.huge, true⟩ ⟨2, 2, 0, 2, 1, 1⟩).2.2.head? =
      some (.release .huge) ∧
    (slot_manager_current (slot_manager_release ⟨2, 2, 0, 2, 1, 1⟩ .huge) .normal <
        slot_manager_max (slot_manager_release ⟨2, 2, 0, 2, 1, 1⟩ .huge) .normal →
      (downgrade_tier_to_normal ⟨.huge, true⟩ ⟨2, 2, 0, 2, 1, 1⟩).1 =
        ⟨.normal, true⟩ ∧
      (downgrade_tier_to_normal ⟨.huge, true⟩ ⟨2, 2, 0, 2, 1, 1⟩).2.1 =
        (slot_manager_acquire (slot_manager_release ⟨2, 2, 0, 2, 1, 1⟩ .huge)
          .normal).2 ∧
      (downgrade_tier_to_normal ⟨.huge, true⟩ ⟨2, 2, 0, 2, 1, 1⟩).2.2 =
        [.release .huge, .acquireOk .normal]) ∧
    (slot_manager_current (slot_manager_release ⟨2, 2, 0, 2, 1, 1⟩ .huge) .normal ≥
        slot_manager_max (slot_manager_release ⟨2, 2, 0, 2, 1, 1⟩ .huge) .normal →
      (slot_manager_current (slot_manager_release ⟨2, 2, 0, 2, 1, 1⟩ .huge) .huge <
          slot_manager_max (slot_manager_release ⟨2, 2, 0, 2, 1, 1⟩ .huge) .huge →
        (downgrade_tier_to_normal ⟨.huge, true⟩ ⟨2, 2, 0, 2, 1, 1⟩).1 =
          ⟨.huge, true⟩ ∧
        (downgrade_tier_to_normal ⟨.huge, true⟩ ⟨2, 2, 0, 2, 1, 1⟩).2.1 =
          (slot_manager_acquire (slot_manager_release ⟨2, 2, 0, 2, 1, 1⟩ .huge)
            .huge).2) ∧
      (slot_manager_current (slot_manager_release ⟨2, 2, 0, 2, 1, 1⟩ .huge) .huge ≥
          slot_manager_max (slot_manager_release ⟨2, 2, 0, 2, 1, 1⟩ .huge) .huge →
        (downgrade_tier_to_normal ⟨.huge, true⟩ ⟨2, 2, 0, 2, 1, 1⟩).1 =
          ⟨.huge, false⟩ ∧
        (downgrade_tier_to_normal ⟨.huge, true⟩ ⟨2, 2, 0, 2, 1, 1⟩).2.1 =
          slot_manager_release ⟨2, 2, 0, 2, 1, 1⟩ .huge)) :=
  C3_amended_downgrade_release_then_acquire ⟨.huge, true⟩ ⟨2, 2, 0, 2, 1, 1⟩
    rfl (by decide)

/-! ## Hex validation (src/hex.c) -/

/-- C source `hex_char_valid` lookup table: 1 exactly for ASCII digits and the
letters `A`-`F` / `a`-`f`. -/
def hex_char_valid (c : Char) : Bool :=
  ('0' ≤ c ∧ c ≤ '9') ∨ ('A' ≤ c ∧ c ≤ 'F') ∨ ('a' ≤ c ∧ c ≤ 'f')

/-- C source `is_all_hex`: every byte of the buffer is a hex character. -/
def is_all_hex (l : List Char) : Bool :=
  l.all hex_char_valid

/-! ## Router (src/router.c) -/

/-- Minimum raw transaction hex length (82 bytes = 164 chars). -/
def MIN_TX_HEX_LENGTH : Nat := 164

/-- Transaction ID length (32 bytes = 64 chars). -/
def TXID_HEX_LENGTH : Nat := 64

/-- C source `RouteType` result of `route_request`. -/
inductive RouteType where
  | error
  | home
  | health
  | ready
  | version
  | alive
  | metrics
  | docs
  | status
  | logos
  | acme_challenge
  | result
  | broadcast
deriving DecidableEq, Repr

/-- C source `route_request` (src/router.c): leading slash, observability and
static routes, ACME challenge prefix, `/tx/{txid}`, then the hex
txid/raw-transaction thresholds. -/
def route_request (path : List Char) : RouteType :=
  match path with
  | [] => .error
  | c :: content =>
    if c ≠ '/' then .error
    else if content.length = 0 then .home
    else if content.length = 6 ∧ content.take 6 = "health".data then .health
    else if content.length = 5 ∧ content.take 5 = "ready".data then .ready
    else if content.length = 7 ∧ content.take 7 = "version".data then .version
    else if content.length = 5 ∧ content.take 5 = "alive".data then .alive
    else if content.length = 7 ∧ content.take 7 = "metrics".data then .metrics
    else if content.length = 4 ∧ content.take 4 = "docs".data then .docs
    else if content.length = 6 ∧ content.take 6 = "status".data then .status
    else if content.length = 5 ∧ content.take 5 = "logos".data then .logos
    else if content.length > 27 ∧
        content.take 27 = ".well-known/acme-challenge/".data then
      .acme_challenge
    else if content.length > 3 ∧ content.take 3 = "tx/".data then
      if (content.drop 3).length = TXID_HEX_LENGTH ∧
          is_all_hex (content.drop 3) = true then .result
      else .error
    else if ¬ is_all_hex content = true then .error
    else if content.length % 2 ≠ 0 then .error
    else if content.length = TXID_HEX_LENGTH then .result
    else if content.length ≥ MIN_TX_HEX_LENGTH then .broadcast
    else .error

/-! ### Helper lemmas about the router on all-hex content -/

theorem hex_take_ne_cons (content : List Char)
    (hhex : is_all_hex content = true) (n : Nat) (hn : 0 < n)
    (c : Char) (cs : List Char) (hc : hex_char_valid c = false) :
    content.take n ≠ c :: cs := by
  intro h
  cases content with
  | nil => simp at h
  | cons a as =>
      cases n with
      | zero => omega
      | succ m =>
          simp only [List.take_succ_cons, List.cons.injEq] at h
          have ha : hex_char_valid a = true := by
            simp only [is_all_hex, List.all_cons, Bool.and_eq_true] at hhex
            exact hhex.1
          rw [h.1, hc] at ha
          cases ha

theorem hex_ne_keyword (content k : List Char)
    (hhex : is_all_hex content = true) (hk : is_all_hex k = false)
    (hlen : content.length = k.length) : content.take k.length ≠ k := by
  intro h
  rw [← hlen, List.take_length] at h
  rw [h, hk] at hhex
  cases hhex

/-- On nonempty all-hex content, the router reaches the hex/length
checks: none of the named routes or prefixed routes can match. -/
theorem route_request_hex_content (content : List Char)
    (hhex : is_all_hex content = true) (hne : content.length ≠ 0) :
    route_request ('/' :: content) =
      (if content.length % 2 ≠ 0 then .error
       else if content.length = TXID_HEX_LENGTH then .result
       else if content.length ≥ MIN_TX_HEX_LENGTH then .broadcast
       else .error) := by
  have hkw : ∀ (k : List Char), is_all_hex k = false →
      ∀ n, n = k.length → ¬ (content.length = n ∧ content.take n = k) := by
    rintro k hk n rfl ⟨h1, h2⟩
    exact hex_ne_keyword content k hhex hk h1 h2
  have hacme : ¬ (content.length > 27 ∧
      content.take 27 = ".well-known/acme-challenge/".data) := by
    rintro ⟨h1, h2⟩
    exact hex_take_ne_cons content hhex 27 (by omega) '.'
      ("well-known/acme-challenge/".data) (by decide) h2
  have htx : ¬ (content.length > 3 ∧ content.take 3 = "tx/".data) := by
    rintro ⟨h1, h2⟩
    exact hex_take_ne_cons content hhex 3 (by omega) 't' ("x/".data)
      (by decide) h2
  simp only [route_request]
  rw [if_neg (by simp : ¬ ('/' : Char) ≠ '/'), if_neg hne,
    if_neg (hkw "health".data (by decide) 6 (by decide)),
    if_neg (hkw "ready".data (by decide) 5 (by decide)),
    if_neg (hkw "version".data (by decide) 7 (by decide)),
    if_neg (hkw "alive".data (by decide) 5 (by decide)),
    if_neg (hkw "metrics".data (by decide) 7 (by decide)),
    if_neg (hkw "docs".data (by decide) 4 (by decide)),
    if_neg (hkw "status".data (by decide) 6 (by decide)),
    if_neg (hkw "logos".data (by decide) 5 (by decide)),
    if_neg hacme, if_neg htx, if_neg (by simp [hhex])]

/-! ### Claim C5 -/

/-- C5 counterexample: a 66-character even-length path tail that
contains non-hex characters but begins with the ACME challenge prefix
routes to ACME_CHALLENGE, not ERROR. -/
theorem C5_counterexample :
    (".well-known/acme-challenge/".data ++ List.replicate 39 'a').length = 66 ∧
    (".well-known/acme-challenge/".data ++ List.replicate 39 'a').length % 2
      = 0 ∧
    is_all_hex (".well-known/acme-challenge/".data ++ List.replicate 39 'a')
      = false ∧
    route_request
        ('/' :: (".well-known/acme-challenge/".data ++ List.replicate 39 'a'))
      = .acme_challenge := by
  refine ⟨by decide, by decide, by decide, by decide⟩

/-- C5 amended: on all-hex content, length 64 routes to RESULT, lengths
63 and 65 (odd) route to ERROR, even length ≥ 164 routes to BROADCAST
and even length strictly between 64 and 164 routes to ERROR; a
66-character tail containing a non-hex character routes to ERROR
provided it does not begin with the ACME challenge prefix
`.well-known/acme-challenge/` (such paths route to ACME_CHALLENGE
instead). -/
theorem C5_amended_route_thresholds :
    (∀ content : List Char, is_all_hex content = true → content.length = 64 →
      route_request ('/' :: content) = .result) ∧
    (∀ content : List Char, is_all_hex content = true → content.length = 63 →
      route_request ('/' :: content) = .error) ∧
    (∀ content : List Char, is_all_hex content = true → content.length = 65 →
      route_request ('/' :: content) = .error) ∧
    (∀ content : List Char, content.length = 66 →
      is_all_hex content = false →
      content.take 27 ≠ ".well-known/acme-challenge/".data →
      route_request ('/' :: content) = .error) ∧
    (∀ content : List Char, is_all_hex content = true →
      content.length % 2 = 0 → 164 ≤ content.length →
      route_request ('/' :: content) = .broadcast) ∧
    (∀ content : List Char, is_all_hex content = true →
      content.length % 2 = 0 → 64 < content.length → content.length < 164 →
      route_request ('/' :: content) = .error) := by
  refine ⟨?_, ?_, ?_, ?_, ?_, ?_⟩
  · intro content hhex hlen
    rw [route_request_hex_content content hhex (by omega), hlen]
    decide
  · intro content hhex hlen
    rw [route_request_hex_content content hhex (by omega), hlen]
    decide
  · intro content hhex hlen
    rw [route_request_hex_content content hhex (by omega), hlen]
    decide
  · intro content hlen hbad hacme
    have h2 : ¬ (content.length = 6 ∧ content.take 6 = "health".data) := by
      rintro ⟨h, _⟩; omega
    have h3 : ¬ (content.length = 5 ∧ content.take 5 = "ready".data) := by
      rintro ⟨h, _⟩; omega
    have h4 : ¬ (content.length = 7 ∧ content.take 7 = "version".data) := by
      rintro ⟨h, _⟩; omega
    have h5 : ¬ (content.length = 5 ∧ content.take 5 = "alive".data) := by
      rintro ⟨h, _⟩; omega
    have h6 : ¬ (content.length = 7 ∧ content.take 7 = "metrics".data) := by
      rintro ⟨h, _⟩; omega
    have h7 : ¬ (content.length = 4 ∧ content.take 4 = "docs".data) := by
      rintro ⟨h, _⟩; omega
    have h8 : ¬ (content.length = 6 ∧ content.take 6 = "status".data) := by
      rintro ⟨h, _⟩; omega
    have h9 : ¬ (content.length = 5 ∧ content.take 5 = "logos".data) := by
      rintro ⟨h, _⟩; omega
    have h10 : ¬ (content.length > 27 ∧
        content.take 27 = ".well-known/acme-challenge/".data) := by
      rintro ⟨_, h⟩; exact hacme h
    simp only [route_request]
    rw [if_neg (by simp : ¬ ('/' : Char) ≠ '/'),
      if_neg (by omega : ¬ content.length = 0),
      if_neg h2, if_neg h3, if_neg h4, if_neg h5, if_neg h6, if_neg h7,
      if_neg h8, if_neg h9, if_neg h10]
    by_cases htx : content.length > 3 ∧ content.take 3 = "tx/".data
    · have hdrop : ¬ ((content.drop 3).length = TXID_HEX_LENGTH ∧
          is_all_hex (content.drop 3) = true) := by
        rintro ⟨h, _⟩
        rw [List.length_drop, hlen] at h
        simp only [TXID_HEX_LENGTH] at h
        omega
      rw [if_pos htx, if_neg hdrop]
    · rw [if_neg htx, if_pos (by simp [hbad] : ¬ is_all_hex content = true)]
  · intro content hhex heven hbig
    rw [route_request_hex_content content hhex (by omega)]
    rw [if_neg (by omega : ¬ content.length % 2 ≠ 0),
      if_neg (by simp only [TXID_HEX_LENGTH]; omega :
        ¬ content.length = TXID_HEX_LENGTH),
      if_pos (by simp only [MIN_TX_HEX_LENGTH]; omega :
        content.length ≥ MIN_TX_HEX_LENGTH)]
  · intro content hhex heven hlo hhi
    rw [route_request_hex_content content hhex (by omega)]
    rw [if_neg (by omega : ¬ content.length % 2 ≠ 0),
      if_neg (by simp only [TXID_HEX_LENGTH]; omega :
        ¬ content.length = TXID_HEX_LENGTH),
      if_neg (by simp only [MIN_TX_HEX_LENGTH]; omega :
        ¬ content.length ≥ MIN_TX_HEX_LENGTH)]

/-- Witness for the amended C5 at concrete paths: 64/63/65/66/164/100
character tails. -/
theorem C5_amended_route_thresholds_witness :
    route_request ('/' :: List.replicate 64 'a') = .result ∧
    route_request ('/' :: List.replicate 63 'a') = .error ∧
    route_request ('/' :: List.replicate 65 'a') = .error ∧
    route_request ('/' :: ('z' :: List.replicate 65 'a')) = .error ∧
    route_request ('/' :: List.replicate 164 'a') = .broadcast ∧
    route_request ('/' :: List.replicate 100 'a') = .error :=
  ⟨C5_amended_route_thresholds.1 _ (by decide) (by decide),
   C5_amended_route_thresholds.2.1 _ (by decide) (by decide),
   C5_amended_route_thresholds.2.2.1 _ (by decide) (by decide),
   C5_amended_route_thresholds.2.2.2.1 _ (by decide) (by decide) (by decide),
   C5_amended_route_thresholds.2.2.2.2.1 _ (by decide) (by decide) (by decide),
   C5_amended_route_thresholds.2.2.2.2.2 _ (by decide) (by decide) (by decide)
     (by decide)⟩

/-! ## RateLimiter (src/rate_limiter.c)

The C `double` token arithmetic (+, ·, min, comparisons) is carried out
over `ℚ`.  IP keys are an abstract type `K` with decidable equality:
`parse_ip` normalises the textual IP to a 16-byte key, so an allow call
receives `some key` when the IP parses and `none` when it does not.  The
hash table is flattened to an association list; entries are prepended on
creation, exactly as the C code prepends to its bucket chain. -/

/-- C source `RATE_LIMITER_MAX_ENTRIES` (include/rate_limiter.h). -/
def RATE_LIMITER_MAX_ENTRIES : Nat := 10000

/-- C source `RATE_LIMITER_ENTRY_TTL` in seconds (include/rate_limiter.h). -/
def RATE_LIMITER_ENTRY_TTL : Int := 60

/-- C cast `(time_t)now`: truncation of the double toward zero. -/
def truncToInt (q : ℚ) : Int :=
  if 0 ≤ q then ⌊q⌋ else ⌈q⌉

/-- C source `RateLimitEntry`: token count, replenish timestamp, TTL timestamp. -/
structure RateLimitEntry where
  tokens : ℚ
  last_update : ℚ
  last_request : Int
deriving DecidableEq

/-- C source `RateLimiter` state. -/
structure RateLimiter (K : Type) where
  entries : List (K × RateLimitEntry)
  rate : ℚ
  burst : ℚ
  enabled : Bool

/-- C source `rate_limiter_init`: `rate ≤ 0` disables the limiter (all fields
zeroed by `memset`); otherwise `burst` defaults to `rate` when not
positive. -/
def rate_limiter_init (K : Type) (rate burst : ℚ) : RateLimiter K :=
  if rate ≤ 0 then { entries := [], rate := 0, burst := 0, enabled := false }
  else { entries := []
         rate := rate
         burst := if burst > 0 then burst else rate
         enabled := true }

/-- C source `rate_limiter_cleanup`: drop entries idle longer than the TTL. -/
def rate_limiter_cleanup {K : Type} (rl : RateLimiter K) (now : Int) :
    RateLimiter K :=
  { rl with entries :=
      (rl.entries.filter
        (fun e => ¬ e.2.last_request < now - RATE_LIMITER_ENTRY_TTL)) }

/-- Search the table for a key (C: walk the hash bucket chain). -/
def findEntry {K : Type} [DecidableEq K]
    (entries : List (K × RateLimitEntry)) (k : K) : Option RateLimitEntry :=
  match entries with
  | [] => none
  | (k2, e) :: rest => if k2 = k then some e else findEntry rest k

/-- Write back an entry under its key (C: mutation through the entry
pointer). -/
def setEntry {K : Type} [DecidableEq K]
    (entries : List (K × RateLimitEntry)) (k : K) (e' : RateLimitEntry) :
    List (K × RateLimitEntry) :=
  match entries with
  | [] => []
  | (k2, e) :: rest =>
      if k2 = k then (k2, e') :: rest else (k2, e) :: setEntry rest k e'

/-- C source `get_entry`: find the key's entry, or create one with a full bucket
(`tokens = burst`); when the table is at capacity run a cleanup first
and deny (`none`) if it is still full. -/
def get_entry {K : Type} [DecidableEq K] (rl : RateLimiter K) (k : K)
    (now : ℚ) : Option RateLimitEntry × RateLimiter K :=
  match findEntry rl.entries k with
  | some e => (some e, rl)
  | none =>
      let rl1 := if rl.entries.length ≥ RATE_LIMITER_MAX_ENTRIES
                 then rate_limiter_cleanup rl (truncToInt now) else rl
      if rl1.entries.length ≥ RATE_LIMITER_MAX_ENTRIES then (none, rl1)
      else
        let e : RateLimitEntry :=
          { tokens := rl1.burst, last_update := now,
            last_request := truncToInt now }
        (some e, { rl1 with entries := (k, e) :: rl1.entries })

/-- C source `replenish_tokens`: no-op unless time advanced; otherwise add
`elapsed · rate` and cap at `burst`. -/
def replenish_tokens {K : Type} (rl : RateLimiter K) (e : RateLimitEntry)
    (now : ℚ) : RateLimitEntry :=
  if now ≤ e.last_update then e
  else
    let elapsed := now - e.last_update
    let new_tokens := e.tokens + elapsed * rl.rate
    let capped := if new_tokens > rl.burst then rl.burst else new_tokens
    { e with tokens := capped, last_update := now }

/-- C source `rate_limiter_allow`: fail open when disabled or the IP did not
parse; deny when no entry can be tracked; otherwise replenish and spend
one token if at least one is available. -/
def rate_limiter_allow {K : Type} [DecidableEq K] (rl : RateLimiter K)
    (key : Option K) (now : ℚ) : Bool × RateLimiter K :=
  if rl.enabled = false then (true, rl)
  else
    match key with
    | none => (true, rl)
    | some k =>
        match get_entry rl k now with
        | (none, rl1) => (false, rl1)
        | (some e, rl1) =>
            let e1 : RateLimitEntry := { e with last_request := truncToInt now }
            let e2 := replenish_tokens rl1 e1 now
            if 1 ≤ e2.tokens then
              (true, { rl1 with entries :=
                (setEntry rl1.entries k { e2 with tokens := e2.tokens - 1 }) })
            else
              (false, { rl1 with entries := (setEntry rl1.entries k e2) })

/-- C source `rate_limiter_get_entry_count`. -/
def rate_limiter_get_entry_count {K : Type} (rl : RateLimiter K) : Nat :=
  rl.entries.length

/-- Run `n` consecutive `rate_limiter_allow` calls for one key at one
instant, collecting the verdicts. -/
def allowRun {K : Type} [DecidableEq K] (rl : RateLimiter K) (k : K)
    (now : ℚ) : Nat → List Bool × RateLimiter K
  | 0 => ([], rl)
  | n + 1 =>
      let r1 := rate_limiter_allow rl (some k) now
      let r2 := allowRun r1.2 k now n
      (r1.1 :: r2.1, r2.2)

/-! ### Helper lemmas about the rate limiter -/

theorem replenish_min {K : Type} (rl : RateLimiter K) (e : RateLimitEntry)
    (now : ℚ) (hle : e.last_update ≤ now) (hcap : e.tokens ≤ rl.burst) :
    replenish_tokens rl e now =
      { tokens := min rl.burst (e.tokens + (now - e.last_update) * rl.rate)
        last_update := now
        last_request := e.last_request } := by
  cases e with
  | mk t lu lr =>
      simp only [RateLimitEntry.last_update] at hle
      simp only [RateLimitEntry.tokens] at hcap
      unfold replenish_tokens
      by_cases h : now ≤ lu
      · have heq : lu = now := le_antisymm hle h
        subst heq
        rw [if_pos h]
        simp [sub_self, min_eq_right hcap]
      · rw [if_neg h]
        by_cases hx : t + (now - lu) * rl.rate > rl.burst
        · simp only [if_pos hx]
          rw [min_eq_left (le_of_lt hx)]
        · simp only [if_neg hx]
          rw [min_eq_right (not_lt.mp hx)]

theorem allow_found_step {K : Type} [DecidableEq K] (rl : RateLimiter K)
    (k : K) (e : RateLimitEntry) (now : ℚ)
    (hen : rl.enabled = true)
    (hfind : findEntry rl.entries k = some e)
    (hle : e.last_update ≤ now) (hcap : e.tokens ≤ rl.burst) :
    rate_limiter_allow rl (some k) now =
      (if 1 ≤ min rl.burst (e.tokens + (now - e.last_update) * rl.rate)
       then (true, { rl with entries := (setEntry rl.entries k
         { tokens := min rl.burst (e.tokens + (now - e.last_update) * rl.rate)
             - 1
           last_update := now, last_request := truncToInt now }) })
       else (false, { rl with entries := (setEntry rl.entries k
         { tokens := min rl.burst (e.tokens + (now - e.last_update) * rl.rate)
           last_update := now, last_request := truncToInt now }) })) := by
  have hget : get_entry rl k now = (some e, rl) := by
    unfold get_entry
    rw [hfind]
  have hrep := replenish_min rl { e with last_request := truncToInt now } now
    hle hcap
  unfold rate_limiter_allow
  rw [if_neg (by simp [hen])]
  simp only [hget, hrep]
/-- The limiter's state after `j` same-instant allows for one fresh key
starting from a full burst of `b` tokens. -/
def burstState (K : Type) (k : K) (rate : ℚ) (b : ℕ) (now : ℚ) (j : ℕ) :
    RateLimiter K :=
  { entries := [(k,
      { tokens := (b : ℚ) - (j : ℚ)
        last_update := now
        last_request := truncToInt now })]
    rate := rate
    burst := (b : ℚ)
    enabled := true }
theorem allow_first_call {K : Type} [DecidableEq K] (k : K) (rate : ℚ)
    (b : ℕ) (now : ℚ) (hrate : 0 < rate) (hb : 1 ≤ b) :
    rate_limiter_allow (rate_limiter_init K rate (b : ℚ)) (some k) now =
      (true, burstState K k rate b now 1) := by
  have hbq : (0 : ℚ) < (b : ℚ) := by
    have hpos : 0 < b := by omega
    exact_mod_cast hpos
  have hinit : rate_limiter_init K rate (b : ℚ) =
      { entries := [], rate := rate, burst := (b : ℚ), enabled := true } := by
    unfold rate_limiter_init
    rw [if_neg (not_le.mpr hrate), if_pos hbq]
  have h1 : (1 : ℚ) ≤ (b : ℚ) := by exact_mod_cast hb
  rw [hinit]
  unfold rate_limiter_allow
  rw [if_neg (by simp)]
  have hget : get_entry (⟨[], rate, (b : ℚ), true⟩ : RateLimiter K) k now =
      (some ⟨(b : ℚ), now, truncToInt now⟩,
       (⟨[(k, ⟨(b : ℚ), now, truncToInt now⟩)], rate, (b : ℚ), true⟩ :
         RateLimiter K)) := by
    unfold get_entry findEntry
    simp [RATE_LIMITER_MAX_ENTRIES]
  simp only [hget]
  have hrep := replenish_min
    (⟨[(k, ⟨(b : ℚ), now, truncToInt now⟩)], rate, (b : ℚ), true⟩ :
      RateLimiter K)
    ⟨(b : ℚ), now, truncToInt now⟩ now (le_refl now) (le_refl _)
  simp only [hrep]
  rw [if_pos (by simpa using h1)]
  simp [burstState, setEntry, sub_self, min_eq_right (le_refl (b : ℚ))]

theorem allow_burst_step {K : Type} [DecidableEq K] (k : K) (rate : ℚ)
    (b j : ℕ) (now : ℚ) :
    rate_limiter_allow (burstState K k rate b now j) (some k) now =
      (if 1 ≤ (b : ℚ) - (j : ℚ)
       then (true, burstState K k rate b now (j + 1))
       else (false, burstState K k rate b now j)) := by
  have h0j : (0 : ℚ) ≤ (j : ℚ) := by positivity
  have hcap : ((b : ℚ) - (j : ℚ)) ≤ (b : ℚ) := by linarith
  have hstep := allow_found_step (burstState K k rate b now j) k
    ⟨(b : ℚ) - (j : ℚ), now, truncToInt now⟩ now
    (by simp [burstState]) (by simp [burstState, findEntry]) (le_refl now)
    (by simp [burstState])
  rw [hstep]
  simp only [burstState, sub_self, zero_mul, add_zero]
  rw [min_eq_right hcap]
  by_cases h : (1 : ℚ) ≤ (b : ℚ) - (j : ℚ)
  · rw [if_pos h, if_pos h]
    have htok : (b : ℚ) - (j : ℚ) - 1 = (b : ℚ) - ((j + 1 : ℕ) : ℚ) := by
      push_cast
      ring
    rw [htok]
    simp [setEntry]
  · rw [if_neg h, if_neg h]
    simp [setEntry]

theorem allowRun_burst_aux {K : Type} [DecidableEq K] (k : K) (rate : ℚ)
    (b : ℕ) (now : ℚ) : ∀ m j, j + m = b →
    (allowRun (burstState K k rate b now j) k now (m + 1)).1 =
      List.replicate m true ++ [false] := by
  intro m
  induction m with
  | zero =>
      intro j hj
      have hjb : j = b := by omega
      subst hjb
      have hno : ¬ (1 : ℚ) ≤ (j : ℚ) - (j : ℚ) := by
        rw [sub_self]
        norm_num
      show (rate_limiter_allow (burstState K k rate j now j) (some k) now).1 ::
          (allowRun (rate_limiter_allow (burstState K k rate j now j)
            (some k) now).2 k now 0).1 = [false]
      rw [allow_burst_step, if_neg hno]
      rfl
  | succ n ih =>
      intro j hj
      have h1 : (1 : ℚ) ≤ (b : ℚ) - (j : ℚ) := by
        have hjn : j + 1 ≤ b := by omega
        have hcast : ((j : ℚ) + 1) ≤ (b : ℚ) := by exact_mod_cast hjn
        linarith
      show (rate_limiter_allow (burstState K k rate b now j) (some k) now).1 ::
          (allowRun (rate_limiter_allow (burstState K k rate b now j)
            (some k) now).2 k now (n + 1)).1 =
          List.replicate (n + 1) true ++ [false]
      rw [allow_burst_step, if_pos h1]
      show true :: (allowRun (burstState K k rate b now (j + 1)) k now
        (n + 1)).1 = List.replicate (n + 1) true ++ [false]
      rw [ih (j + 1) (by omega)]
      simp [List.replicate_succ]

/-! ### Claim C6 -/

/-- C6: a first allow for a fresh IP creates its entry with
`tokens = burst`; every allow on a tracked entry first replenishes
`tokens := min(burst, tokens + (now − last_update)·rate)` and then
returns allowed and deducts 1 iff the replenished count is ≥ 1;
consequently, with no elapsed time, exactly `burst` consecutive requests
from one IP succeed and the next is rejected. -/
theorem C6_token_bucket_behavior (K : Type) [DecidableEq K] :
    (∀ (rl : RateLimiter K) (k : K) (now : ℚ),
      findEntry rl.entries k = none →
      rl.entries.length < RATE_LIMITER_MAX_ENTRIES →
      (get_entry rl k now).1 = some ⟨rl.burst, now, truncToInt now⟩) ∧
    (∀ (rl : RateLimiter K) (k : K) (e : RateLimitEntry) (now : ℚ),
      rl.enabled = true → findEntry rl.entries k = some e →
      e.last_update ≤ now → e.tokens ≤ rl.burst →
      rate_limiter_allow rl (some k) now =
        (if 1 ≤ min rl.burst (e.tokens + (now - e.last_update) * rl.rate)
         then (true, { rl with entries := (setEntry rl.entries k
           ⟨min rl.burst (e.tokens + (now - e.last_update) * rl.rate) - 1,
            now, truncToInt now⟩) })
         else (false, { rl with entries := (setEntry rl.entries k
           ⟨min rl.burst (e.tokens + (now - e.last_update) * rl.rate),
            now, truncToInt now⟩) }))) ∧
    (∀ (k : K) (rate : ℚ) (b : ℕ) (now : ℚ), 0 < rate → 1 ≤ b →
      (allowRun (rate_limiter_init K rate (b : ℚ)) k now (b + 1)).1 =
        List.replicate b true ++ [false]) := by
  refine ⟨?_, ?_, ?_⟩
  · intro rl k now hfind hlen
    unfold get_entry
    rw [hfind]
    simp only [if_neg (not_le.mpr hlen)]
  · intro rl k e now hen hfind hle hcap
    exact allow_found_step rl k e now hen hfind hle hcap
  · intro k rate b now hrate hb
    obtain ⟨b1, rfl⟩ : ∃ b1, b = b1 + 1 := ⟨b - 1, by omega⟩
    show (rate_limiter_allow (rate_limiter_init K rate ((b1 + 1 : ℕ) : ℚ))
        (some k) now).1 ::
      (allowRun (rate_limiter_allow (rate_limiter_init K rate
        ((b1 + 1 : ℕ) : ℚ)) (some k) now).2 k now (b1 + 1)).1 =
      List.replicate (b1 + 1) true ++ [false]
    rw [allow_first_call k rate (b1 + 1) now hrate hb]
    show true :: (allowRun (burstState K k rate (b1 + 1) now 1) k now
      (b1 + 1)).1 = List.replicate (b1 + 1) true ++ [false]
    rw [allowRun_burst_aux k rate (b1 + 1) now b1 1 (by omega)]
    simp [List.replicate_succ]

/-- Witness for C6 at `burst = 2`, one key, a single instant. -/
theorem C6_token_bucket_behavior_witness :
    ((get_entry (⟨[], 1, 2, true⟩ : RateLimiter ℕ) 0 0).1 =
      some ⟨2, 0, truncToInt 0⟩) ∧
    (rate_limiter_allow (⟨[(0, ⟨2, 0, 0⟩)], 1, 2, true⟩ : RateLimiter ℕ)
        (some 0) 0 =
      (if 1 ≤ min (2 : ℚ) ((2 : ℚ) + ((0 : ℚ) - 0) * 1)
       then (true, ⟨setEntry [(0, ⟨2, 0, 0⟩)] 0
         ⟨min (2 : ℚ) ((2 : ℚ) + ((0 : ℚ) - 0) * 1) - 1, 0, truncToInt 0⟩,
         1, 2, true⟩)
       else (false, ⟨setEntry [(0, ⟨2, 0, 0⟩)] 0
         ⟨min (2 : ℚ) ((2 : ℚ) + ((0 : ℚ) - 0) * 1), 0, truncToInt 0⟩,
         1, 2, true⟩))) ∧
    ((allowRun (rate_limiter_init ℕ 1 ((2 : ℕ) : ℚ)) 0 0 (2 + 1)).1 =
      List.replicate 2 true ++ [false]) :=
  ⟨(C6_token_bucket_behavior ℕ).1 ⟨[], 1, 2, true⟩ 0 0 rfl (by decide),
   (C6_token_bucket_behavior ℕ).2.1 ⟨[(0, ⟨2, 0, 0⟩)], 1, 2, true⟩ 0 ⟨2, 0, 0⟩
     0 rfl rfl (le_refl _) (le_refl _),
   (C6_token_bucket_behavior ℕ).2.2 0 1 2 0 (by norm_num) (by norm_num)⟩

/-! ## Worker accept path (src/worker.c)

`ip_acl_check` and `parse_ip` are carried as function-valued fields of
the worker state; the canned responses record status code and
`Retry-After` header. -/

/-- C source `IpACLResult` (include/ip_acl.h). -/
inductive IpACLResult where
  | allow
  | block
  | neutral
deriving DecidableEq, Repr

/-- A short fixed response sent before closing the socket. -/
structure CannedResponse where
  status : Nat
  retry_after : Option Nat
deriving DecidableEq, Repr

/-- C source `send_503_response`: 503 with `Retry-After: 5`. -/
def send_503_response : CannedResponse := ⟨503, some 5⟩

/-- C source `send_429_response`: 429 with `Retry-After: 1`. -/
def send_429_response : CannedResponse := ⟨429, some 1⟩

/-- C source `send_403_response`: 403, no Retry-After. -/
def send_403_response : CannedResponse := ⟨403, none⟩

/-- The worker state touched by `accept_cb`. -/
structure WorkerProcess (IP K : Type) where
  draining : Bool
  ip_acl : IP → IpACLResult
  parse_ip : IP → Option K
  rate_limiter : RateLimiter K
  slots : SlotManager
  connections_rejected_blocked : Nat
  connections_rejected_rate : Nat
  connections_rejected_slot : Nat
  connections_allowlisted : Nat
  connections_accepted : Nat
  active_connections : Nat

/-- Outcome of `accept_cb` for one incoming connection. -/
inductive AcceptOutcome where
  | closed_draining
  | rejected (r : CannedResponse)
  | accepted
deriving DecidableEq, Repr

/-- Tail of `accept_cb` (worker.c:359-381): NORMAL tier slot acquire,
then Connection construction. -/
def acceptSlotPhase {IP K : Type} (w : WorkerProcess IP K) :
    AcceptOutcome × WorkerProcess IP K :=
  match slot_manager_acquire w.slots .normal with
  | (false, sm) =>
      (.rejected send_503_response,
       { w with
          slots := sm
          connections_rejected_slot := w.connections_rejected_slot + 1 })
  | (true, sm) =>
      (.accepted,
       { w with
          slots := sm
          connections_accepted := w.connections_accepted + 1
          active_connections := w.active_connections + 1 })

/-- C source `accept_cb` (worker.c:317-381): draining refuses silently; then ACL
check (BLOCK → 403), then the rate-limit check skipped exactly for
ALLOW (failure → 429), then the NORMAL slot acquire (failure → 503),
and only then the Connection is constructed. -/
def accept_cb {IP K : Type} [DecidableEq K] (w : WorkerProcess IP K)
    (client_ip : IP) (now : ℚ) : AcceptOutcome × WorkerProcess IP K :=
  if w.draining then (.closed_draining, w)
  else
    let acl_result := w.ip_acl client_ip
    if acl_result = .block then
      (.rejected send_403_response,
       { w with
          connections_rejected_blocked := w.connections_rejected_blocked + 1 })
    else if acl_result ≠ .allow then
      let rla := rate_limiter_allow w.rate_limiter (w.parse_ip client_ip) now
      if rla.1 = false then
        (.rejected send_429_response,
         { w with
            rate_limiter := rla.2
            connections_rejected_rate := w.connections_rejected_rate + 1 })
      else
        acceptSlotPhase { w with rate_limiter := rla.2 }
    else
      acceptSlotPhase
        { w with connections_allowlisted := w.connections_allowlisted + 1 }

/-! ### Claim C7 -/

/-- C7: on a non-draining worker, a blocklisted IP gets 403 with the
rate limiter and slots untouched; an allowlisted IP skips the rate
limiter entirely and goes straight to the NORMAL slot acquire (503 with
`Retry-After: 5` on failure, accepted otherwise); a neutral IP is rate
limited first (429 with `Retry-After: 1` on failure, slots untouched)
and only then slot-admitted; a Connection is constructed iff every step
passes. -/
theorem C7_accept_admission_chain (IP K : Type) [DecidableEq K]
    (w : WorkerProcess IP K) (ip : IP) (now : ℚ)
    (hdr : w.draining = false) :
    (w.ip_acl ip = .block →
      accept_cb w ip now = (.rejected send_403_response,
        { w with
           connections_rejected_blocked :=
             w.connections_rejected_blocked + 1 })) ∧
    (w.ip_acl ip = .allow →
      (accept_cb w ip now).2.rate_limiter = w.rate_limiter ∧
      ((slot_manager_acquire w.slots .normal).1 = false →
        (accept_cb w ip now).1 = .rejected send_503_response) ∧
      ((slot_manager_acquire w.slots .normal).1 = true →
        (accept_cb w ip now).1 = .accepted)) ∧
    (w.ip_acl ip = .neutral →
      ((rate_limiter_allow w.rate_limiter (w.parse_ip ip) now).1 = false →
        (accept_cb w ip now).1 = .rejected send_429_response ∧
        (accept_cb w ip now).2.slots = w.slots) ∧
      ((rate_limiter_allow w.rate_limiter (w.parse_ip ip) now).1 = true →
        ((slot_manager_acquire w.slots .normal).1 = false →
          (accept_cb w ip now).1 = .rejected send_503_response) ∧
        ((slot_manager_acquire w.slots .normal).1 = true →
          (accept_cb w ip now).1 = .accepted))) ∧
    ((accept_cb w ip now).1 = .accepted ↔
      w.ip_acl ip ≠ .block ∧
      (w.ip_acl ip = .allow ∨
        (rate_limiter_allow w.rate_limiter (w.parse_ip ip) now).1 = true) ∧
      (slot_manager_acquire w.slots .normal).1 = true) ∧
    send_403_response = ⟨403, none⟩ ∧
    send_429_response = ⟨429, some 1⟩ ∧
    send_503_response = ⟨503, some 5⟩ := by
  rcases hr : rate_limiter_allow w.rate_limiter (w.parse_ip ip) now
    with ⟨rb, rl2⟩
  rcases hs : slot_manager_acquire w.slots .normal with ⟨sb, sm2⟩
  refine ⟨?_, ?_, ?_, ?_, rfl, rfl, rfl⟩
  · intro hacl
    simp [accept_cb, hdr, hacl]
  · intro hacl
    cases sb <;>
      simp [accept_cb, acceptSlotPhase, hdr, hacl, hr, hs]
  · intro hacl
    cases rb <;> cases sb <;>
      simp [accept_cb, acceptSlotPhase, hdr, hacl, hr, hs]
  · cases hacl : w.ip_acl ip <;> cases rb <;> cases sb <;>
      simp [accept_cb, acceptSlotPhase, hdr, hacl, hr, hs,
        send_403_response, send_429_response, send_503_response]

/-- A concrete single-slot worker with a neutral ACL, for the witness. -/
def sampleWorker : WorkerProcess Unit Unit :=
  { draining := false
    ip_acl := fun _ => .neutral
    parse_ip := fun _ => some ()
    rate_limiter := ⟨[], 1, 1, true⟩
    slots := slot_manager_init 1 0 0
    connections_rejected_blocked := 0
    connections_rejected_rate := 0
    connections_rejected_slot := 0
    connections_allowlisted := 0
    connections_accepted := 0
    active_connections := 0 }

/-- Witness for C7 at the concrete worker. -/
theorem C7_accept_admission_chain_witness :
    (sampleWorker.ip_acl () = .block →
      accept_cb sampleWorker () 0 = (.rejected send_403_response,
        { sampleWorker with
           connections_rejected_blocked :=
             sampleWorker.connections_rejected_blocked + 1 })) ∧
    (sampleWorker.ip_acl () = .allow →
      (accept_cb sampleWorker () 0).2.rate_limiter =
        sampleWorker.rate_limiter ∧
      ((slot_manager_acquire sampleWorker.slots .normal).1 = false →
        (accept_cb sampleWorker () 0).1 = .rejected send_503_response) ∧
      ((slot_manager_acquire sampleWorker.slots .normal).1 = true →
        (accept_cb sampleWorker () 0).1 = .accepted)) ∧
    (sampleWorker.ip_acl () = .neutral →
      ((rate_limiter_allow sampleWorker.rate_limiter
          (sampleWorker.parse_ip ()) 0).1 = false →
        (accept_cb sampleWorker () 0).1 = .rejected send_429_response ∧
        (accept_cb sampleWorker () 0).2.slots = sampleWorker.slots) ∧
      ((rate_limiter_allow sampleWorker.rate_limiter
          (sampleWorker.parse_ip ()) 0).1 = true →
        ((slot_manager_acquire sampleWorker.slots .normal).1 = false →
          (accept_cb sampleWorker () 0).1 = .rejected send_503_response) ∧
        ((slot_manager_acquire sampleWorker.slots .normal).1 = true →
          (accept_cb sampleWorker () 0).1 = .accepted))) ∧
    ((accept_cb sampleWorker () 0).1 = .accepted ↔
      sampleWorker.ip_acl () ≠ .block ∧
      (sampleWorker.ip_acl () = .allow ∨
        (rate_limiter_allow sampleWorker.rate_limiter
          (sampleWorker.parse_ip ()) 0).1 = true) ∧
      (slot_manager_acquire sampleWorker.slots .normal).1 = true) ∧
    send_403_response = ⟨403, none⟩ ∧
    send_429_response = ⟨429, some 1⟩ ∧
    send_503_response = ⟨503, some 5⟩ :=
  C7_accept_admission_chain Unit Unit sampleWorker () 0 rfl

/-! ## HTTP/2 stream admission (src/http2.c) -/

/-- The H2Stream fields the admission path touches. -/
structure H2Stream where
  stream_id : Int
  slot_acquired : Bool
  tier : RequestTier
deriving DecidableEq, Repr

/-- The H2Connection fields the admission path touches. -/
structure H2Connection where
  streams : List H2Stream
  slots : SlotManager
  h2_rst_stream_total : Nat
deriving DecidableEq, Repr

/-- Return value of an nghttp2 callback: 0, or
`NGHTTP2_ERR_TEMPORAL_CALLBACK_FAILURE` (resets only this stream with
RST_STREAM), or `NGHTTP2_ERR_CALLBACK_FAILURE` (fatal: terminates the
whole session). -/
inductive H2CallbackResult where
  | ok
  | temporal_failure
  | session_fatal
deriving DecidableEq, Repr

/-- C source `h2_on_begin_headers_callback` (http2.c:376-409): non-request frames
are ignored; a NORMAL tier slot is acquired for the new stream — on
failure only this stream is refused; on success the stream created and
linked by `h2_stream_new` (calloc modelled by `allocOk`; its
calloc-failure branch releases the slot and refuses the stream) gets
`slot_acquired := true` and `tier := TIER_NORMAL` through the stream
pointer, i.e. at the head of the list. -/
def h2_on_begin_headers_callback (h2 : H2Connection)
    (frame_is_request : Bool) (stream_id : Int) (allocOk : Bool) :
    H2CallbackResult × H2Connection :=
  if frame_is_request = false then (.ok, h2)
  else
    match slot_manager_acquire h2.slots .normal with
    | (false, sm) =>
        (.temporal_failure,
         { h2 with
            slots := sm
            h2_rst_stream_total := h2.h2_rst_stream_total + 1 })
    | (true, sm) =>
        if allocOk = false then
          (.temporal_failure,
           { h2 with
              slots := slot_manager_release sm .normal
              h2_rst_stream_total := h2.h2_rst_stream_total + 1 })
        else
          (.ok,
           { h2 with
              slots := sm
              streams := (⟨stream_id, true, .normal⟩ : H2Stream)
                :: h2.streams })

theorem acquire_false_eq (sm : SlotManager) (t : RequestTier)
    (h : (slot_manager_acquire sm t).1 = false) :
    slot_manager_acquire sm t = (false, sm) := by
  rw [acquire_spec] at h ⊢
  by_cases hc : slot_manager_current sm t ≥ slot_manager_max sm t
  · rw [if_pos hc]
  · rw [if_neg hc] at h
    simp at h

theorem acquire_true_eq (sm : SlotManager) (t : RequestTier)
    (h : (slot_manager_acquire sm t).1 = true) :
    slot_manager_acquire sm t = (true, (slot_manager_acquire sm t).2) := by
  cases hv : slot_manager_acquire sm t with
  | mk b s =>
      have hb : b = true := by rw [hv] at h; exact h
      rw [hb]

/-! ### Claim C8 -/

/-- C8: `on_begin_headers` never returns the session-fatal code, so the
session survives every admission decision; if the NORMAL slot acquire
fails, exactly this stream is refused (`temporal_failure`, RST counter
incremented, stream list and slot counters untouched); on success the
newly created and linked H2Stream has `slot_acquired = true` and
`tier = NORMAL`. -/
theorem C8_h2_stream_admission (h2 : H2Connection) (sid : Int) :
    (∀ (req allocOk : Bool),
      (h2_on_begin_headers_callback h2 req sid allocOk).1 ≠ .session_fatal) ∧
    ((slot_manager_acquire h2.slots .normal).1 = false →
      ∀ allocOk, h2_on_begin_headers_callback h2 true sid allocOk =
        (.temporal_failure,
         { h2 with
            h2_rst_stream_total := h2.h2_rst_stream_total + 1 })) ∧
    ((slot_manager_acquire h2.slots .normal).1 = true →
      h2_on_begin_headers_callback h2 true sid true =
        (.ok,
         { h2 with
            slots := (slot_manager_acquire h2.slots .normal).2
            streams := (⟨sid, true, .normal⟩ : H2Stream)
              :: h2.streams })) := by
  refine ⟨?_, ?_, ?_⟩
  · intro req allocOk
    unfold h2_on_begin_headers_callback
    rcases hacq : slot_manager_acquire h2.slots .normal with ⟨b, sm⟩
    cases req <;> cases b <;> cases allocOk <;> simp [hacq]
  · intro hfail allocOk
    have hacq := acquire_false_eq h2.slots .normal hfail
    unfold h2_on_begin_headers_callback
    rw [if_neg (by simp)]
    rw [hacq]
  · intro hok
    rcases hacq : slot_manager_acquire h2.slots .normal with ⟨b, sm2⟩
    have hb : b = true := by rw [hacq] at hok; exact hok
    subst hb
    unfold h2_on_begin_headers_callback
    rw [if_neg (by simp)]
    simp only [hacq]
    rw [if_neg (by simp : ¬ true = false)]

/-- Witness for C8: a session with a full NORMAL tier (refusal) and one
with a free NORMAL slot (admission). -/
theorem C8_h2_stream_admission_witness :
    (h2_on_begin_headers_callback ⟨[], ⟨1, 1, 0, 0, 0, 0⟩, 0⟩
        true 1 true =
      (.temporal_failure, ⟨[], ⟨1, 1, 0, 0, 0, 0⟩, 0 + 1⟩)) ∧
    (h2_on_begin_headers_callback ⟨[], ⟨0, 1, 0, 0, 0, 0⟩, 0⟩ true 1 true =
      (.ok,
       ⟨[(⟨1, true, .normal⟩ : H2Stream)],
        (slot_manager_acquire (⟨0, 1, 0, 0, 0, 0⟩ : SlotManager)
          .normal).2, 0⟩)) :=
  ⟨(C8_h2_stream_admission ⟨[], ⟨1, 1, 0, 0, 0, 0⟩, 0⟩ 1).2.1 (by decide)
     true,
   (C8_h2_stream_admission ⟨[], ⟨0, 1, 0, 0, 0, 0⟩, 0⟩ 1).2.2 (by decide)⟩

/-! ## Async RPC requests (src/rpc.c) -/

/-- The RPCRequest fields that decide whether a completion fires:
`callback` and `callback_data` are nullable C pointers, modelled as
options over abstract types. -/
structure RPCRequest (CB D : Type) where
  callback : Option CB
  callback_data : Option D

/-- C source `rpc_request_cancel` (rpc.c:1255-1269): null the callback and its
data (the request is also unlinked from the active list and freed). -/
def rpc_request_cancel {CB D : Type} (req : RPCRequest CB D) :
    RPCRequest CB D :=
  { req with callback := none, callback_data := none }

/-- C source `rpc_request_complete` (rpc.c:880-894): fire the callback iff it is
still set — cancelled requests have a NULL callback.  Returns the fired
invocation `(callback, status, result, callback_data)`, if any. -/
def rpc_request_complete {CB D : Type} (req : RPCRequest CB D)
    (status : Int) (result : List Char) :
    Option (CB × Int × List Char × Option D) :=
  match req.callback with
  | none => none
  | some cb => some (cb, status, result, req.callback_data)

/-! ### Claim C9 -/

/-- C9: cancelling an RPC request nulls its callback, and completion
fires only a non-null callback, so after a cancel no completion path
can ever fire the request's callback. -/
theorem C9_cancel_prevents_callback (CB D : Type) (req : RPCRequest CB D) :
    (rpc_request_cancel req).callback = none ∧
    (∀ (status : Int) (result : List Char),
      rpc_request_complete (rpc_request_cancel req) status result = none) ∧
    (∀ (r : RPCRequest CB D), r.callback = none →
      ∀ (status : Int) (result : List Char),
        rpc_request_complete r status result = none) := by
  refine ⟨rfl, fun status result => rfl, ?_⟩
  intro r hr status result
  unfold rpc_request_complete
  rw [hr]

/-- Witness for C9 at a concrete cancelled request. -/
theorem C9_cancel_prevents_callback_witness :
    (rpc_request_cancel (⟨some 7, some 3⟩ : RPCRequest ℕ ℕ)).callback =
      none ∧
    rpc_request_complete
      (rpc_request_cancel (⟨some 7, some 3⟩ : RPCRequest ℕ ℕ)) 0 [] = none ∧
    rpc_request_complete (⟨none, some 3⟩ : RPCRequest ℕ ℕ) 0 [] = none :=
  ⟨(C9_cancel_prevents_callback ℕ ℕ ⟨some 7, some 3⟩).1,
   (C9_cancel_prevents_callback ℕ ℕ ⟨some 7, some 3⟩).2.1 0 [],
   (C9_cancel_prevents_callback ℕ ℕ ⟨some 7, some 3⟩).2.2 ⟨none, some 3⟩
     rfl 0 []⟩

/-! ## HTTP/1.1 header parsing (src/connection.c) -/

/-- Case-insensitive character comparison, as `strncasecmp` does per
character (ASCII tolower). -/
def ciEqChar (a b : Char) : Bool :=
  a.toLower = b.toLower

/-- C source `strncasecmp(buf, pattern, n) == 0` where `pattern` is exactly the
`n` compared characters. -/
def ciMatch : List Char → List Char → Bool
  | [], _ => true
  | _ :: _, [] => false
  | p :: ps, c :: cs => ciEqChar c p && ciMatch ps cs

/-- The header-token search loop
`for (i = 0; i + n < len; i++) if (strncasecmp(headers+i, token, n) == 0) ...`:
returns the suffix just after the first case-insensitive occurrence of
the `n`-character token, requiring at least one character after it. -/
def findHeaderValue (token : List Char) : List Char → Option (List Char)
  | [] => none
  | c :: rest =>
      if token.length < (c :: rest).length ∧ ciMatch token (c :: rest) = true
      then some ((c :: rest).drop token.length)
      else findHeaderValue token rest

/-- C `isspace` on the default locale (as consulted by `strtoul`). -/
def isCSpace (c : Char) : Bool :=
  c == ' ' || c == '\t' || c == '\n' || c == Char.ofNat 11 ||
    c == Char.ofNat 12 || c == '\r'

/-- ASCII decimal digit. -/
def isDigitChar (c : Char) : Bool :=
  decide ('0' ≤ c ∧ c ≤ '9')

def digitVal (c : Char) : Nat :=
  c.toNat - '0'.toNat

def digitsToNat : List Char → Nat → Nat
  | [], acc => acc
  | c :: cs, acc => digitsToNat cs (acc * 10 + digitVal c)

/-- C source `ULONG_MAX` on the 64-bit target. -/
def ULONG_MAX : Nat := 2 ^ 64 - 1

/-- C source `strtoul(s, &endptr, 10)` on a 64-bit platform: skip `isspace`
characters, an optional sign, then a digit run.  Returns
`(value, conversion performed, ERANGE)`; a `-` sign negates modulo
2^64 without ERANGE, ERANGE clamps to `ULONG_MAX`, and
`endptr == s` exactly when no conversion was performed. -/
def strtoul10 (s : List Char) : Nat × Bool × Bool :=
  let s1 := s.dropWhile isCSpace
  let signed : Bool × List Char :=
    match s1 with
    | '-' :: rest => (true, rest)
    | '+' :: rest => (false, rest)
    | _ => (false, s1)
  let digits := signed.2.takeWhile isDigitChar
  if digits = [] then (0, false, false)
  else
    let v := digitsToNat digits 0
    if v > ULONG_MAX then (ULONG_MAX, true, true)
    else if signed.1 then ((2 ^ 64 - v % 2 ^ 64) % 2 ^ 64, true, false)
    else (v, true, false)

/-- connection.c:443-471, given `found` pointing just past
`Content-Length:`: skip spaces/tabs; a leading `+`/`-` is rejected by
setting `content_length = 0`; otherwise `strtoul` with the
ERANGE / no-conversion check, again falling back to 0. -/
def content_length_from_value (v : List Char) : Nat :=
  match v.dropWhile (fun c => c == ' ' || c == '\t') with
  | [] => 0
  | c :: cs =>
      if c = '-' ∨ c = '+' then 0
      else
        let r := strtoul10 (c :: cs)
        if r.2.2 = true ∨ r.2.1 = false then 0
        else r.1

/-- connection.c:429-474: the whole Content-Length extraction. -/
def parse_content_length (headers : List Char) : Nat :=
  match findHeaderValue "Content-Length:".data headers with
  | none => 0
  | some v => content_length_from_value v

/-- connection.c:476-503: the Connection header; default keep-alive
(set in `connection_init_common`) unless an explicit `close`. -/
def parse_connection_keepalive (headers : List Char) : Bool :=
  match findHeaderValue "Connection:".data headers with
  | none => true
  | some v =>
      let v1 := v.dropWhile (fun c => c == ' ' || c == '\t')
      if 5 ≤ v1.length ∧ ciMatch "close".data v1 = true then false
      else if 10 ≤ v1.length ∧ ciMatch "keep-alive".data v1 = true then true
      else true

/-- C source `memmem(headers, len, "\r\n", 2)`: index of the first CRLF. -/
def findCRLF : List Char → Option Nat
  | '\r' :: '\n' :: _ => some 0
  | _ :: rest => (findCRLF rest).map (· + 1)
  | [] => none

/-- C source `memchr(p, c, n)`: index of the first `c` among the first `n`
characters. -/
def findCharBefore (c : Char) : Nat → List Char → Option Nat
  | 0, _ => none
  | _, [] => none
  | n + 1, x :: xs =>
      if x = c then some 0 else (findCharBefore c n xs).map (· + 1)

/-- C source `sizeof(conn->method)` (connection.h: `char method[16]`). -/
def METHOD_BUF_SIZE : Nat := 16

/-- The Connection fields `parse_request_headers` fills in. -/
structure ParsedRequest where
  method : List Char
  path : List Char
  content_length : Nat
  keep_alive : Bool
deriving DecidableEq, Repr

/-- C source `parse_request_headers` (connection.c:383-505): request line
(method up to the first space, path up to the second space or line
end), then the Content-Length and Connection headers.  `none` is the
-1 (parse error → 400) return. -/
def parse_request_headers (headers : List Char) : Option ParsedRequest :=
  match findCRLF headers with
  | none => none
  | some lineEnd =>
      match findCharBefore ' ' lineEnd headers with
      | none => none
      | some sp1 =>
          if sp1 ≥ METHOD_BUF_SIZE then none
          else
            let afterSp1 := headers.drop (sp1 + 1)
            let path_len :=
              match findCharBefore ' ' (lineEnd - sp1 - 1) afterSp1 with
              | none => lineEnd - (sp1 + 1)
              | some sp2 => sp2
            some { method := headers.take sp1
                   path := afterSp1.take path_len
                   content_length := parse_content_length headers
                   keep_alive := parse_connection_keepalive headers }

/-- Outcome of the HTTP/1.1 read path once the header block is
complete. -/
inductive H1Outcome where
  | badRequest
  | payloadTooLarge
  | readBody (clen body_received : Nat)
  | processRequest
deriving DecidableEq, Repr

/-- C source `conn_read_cb` (connection.c:1102-1145) after `\r\n\r\n` was found:
parse failure → 400; `content_length > max_buffer_size` → 413; a
positive Content-Length larger than the bytes already buffered →
READING_BODY; otherwise the request is complete and processed.
`remaining` is the byte count left after draining the headers. -/
def conn_read_after_headers (headers : List Char) (remaining : Nat)
    (max_buffer_size : Nat) : H1Outcome :=
  match parse_request_headers headers with
  | none => .badRequest
  | some pr =>
      if pr.content_length > max_buffer_size then .payloadTooLarge
      else if pr.content_length > 0 ∧ remaining < pr.content_length then
        .readBody pr.content_length remaining
      else .processRequest

/-! ### Claim C4 -/

/-- C4 counterexample: a request whose Content-Length value is `-1`
parses successfully with `content_length = 0` and is processed as a
request with no body — the read path never produces the 400 the claim
requires. -/
theorem C4_counterexample :
    parse_request_headers
        "GET / HTTP/1.1\r\nContent-Length: -1\r\n\r\n".data =
      some ⟨"GET".data, "/".data, 0, true⟩ ∧
    conn_read_after_headers
        "GET / HTTP/1.1\r\nContent-Length: -1\r\n\r\n".data 0 65536 =
      .processRequest ∧
    conn_read_after_headers
        "GET / HTTP/1.1\r\nContent-Length: -1\r\n\r\n".data 0 65536 ≠
      .badRequest := by
  refine ⟨by decide, by decide, by decide⟩

theorem dropWhile_spaces_sign (spaces tail : List Char) (sign : Char)
    (hsp : ∀ c ∈ spaces, c = ' ' ∨ c = '\t')
    (hsign : (sign == ' ' || sign == '\t') = false) :
    (spaces ++ sign :: tail).dropWhile (fun c => c == ' ' || c == '\t') =
      sign :: tail := by
  induction spaces with
  | nil => simp [List.dropWhile_cons, hsign]
  | cons c cs ih =>
      have hc : (c == ' ' || c == '\t') = true := by
        rcases hsp c (by simp) with h | h <;> subst h <;> decide
      rw [List.cons_append, List.dropWhile_cons, if_pos hc]
      exact ih (fun x hx => hsp x (List.mem_cons_of_mem _ hx))

/-- C4 amended: a Content-Length value starting (after optional spaces
and tabs) with a `+` or `-` sign is rejected by setting
`content_length = 0`, and a parsed request with `content_length = 0` is
treated as a request with no body and processed — no 400 is produced
for the sign prefix. -/
theorem C4_amended_sign_prefix_means_no_body :
    (∀ (spaces tail : List Char) (sign : Char),
      (∀ c ∈ spaces, c = ' ' ∨ c = '\t') → (sign = '-' ∨ sign = '+') →
      content_length_from_value (spaces ++ sign :: tail) = 0) ∧
    (∀ (headers : List Char) (remaining maxBuf : Nat) (pr : ParsedRequest),
      parse_request_headers headers = some pr → pr.content_length = 0 →
      conn_read_after_headers headers remaining maxBuf = .processRequest) := by
  constructor
  · intro spaces tail sign hsp hsign
    have hsign' : (sign == ' ' || sign == '\t') = false := by
      rcases hsign with h | h <;> subst h <;> decide
    simp only [content_length_from_value,
      dropWhile_spaces_sign spaces tail sign hsp hsign', if_pos hsign]
  · intro headers remaining maxBuf pr hparse hcl
    simp [conn_read_after_headers, hparse, hcl]

/-- Witness for the amended C4: the `-1` value yields 0 and the parsed
request is processed bodiless. -/
theorem C4_amended_sign_prefix_means_no_body_witness :
    content_length_from_value (" ".data ++ '-' :: "1".data) = 0 ∧
    conn_read_after_headers "GET / HTTP/1.1\r\n\r\n".data 0 4096 =
      .processRequest :=
  ⟨C4_amended_sign_prefix_means_no_body.1 " ".data "1".data '-'
     (by decide) (Or.inl rfl),
   C4_amended_sign_prefix_means_no_body.2 "GET / HTTP/1.1\r\n\r\n".data 0
     4096 ⟨"GET".data, "/".data, 0, true⟩ (by decide) rfl⟩

/-! ## RateLimiter entry allocation (rate_limiter.c:143-145)

The `get_entry` above omits one denial source of the C function: after
the table-capacity check, `malloc` can still fail (rate_limiter.c:
143-145), and `get_entry` then returns NULL so `rate_limiter_allow`
denies.  The following pair makes the allocation result explicit, in
the same style as `allocOk` in the HTTP/2 model; `get_entry` and
`rate_limiter_allow` are proved to be their `allocOk = true` slices. -/

/-- C source `get_entry` (rate_limiter.c:119-157) with the entry
allocation explicit: `allocOk = false` is the `malloc` failure at lines
143-145, which returns NULL even when the table has room. -/
def get_entry_alloc {K : Type} [DecidableEq K] (rl : RateLimiter K) (k : K)
    (now : ℚ) (allocOk : Bool) : Option RateLimitEntry × RateLimiter K :=
  match findEntry rl.entries k with
  | some e => (some e, rl)
  | none =>
      let rl1 := if rl.entries.length ≥ RATE_LIMITER_MAX_ENTRIES
                 then rate_limiter_cleanup rl (truncToInt now) else rl
      if rl1.entries.length ≥ RATE_LIMITER_MAX_ENTRIES then (none, rl1)
      else if allocOk = false then (none, rl1)
      else
        let e : RateLimitEntry :=
          { tokens := rl1.burst, last_update := now,
            last_request := truncToInt now }
        (some e, { rl1 with entries := (k, e) :: rl1.entries })

/-- C source `rate_limiter_allow` (rate_limiter.c:181-215) with the
entry allocation explicit. -/
def rate_limiter_allow_alloc {K : Type} [DecidableEq K]
    (rl : RateLimiter K) (key : Option K) (now : ℚ) (allocOk : Bool) :
    Bool × RateLimiter K :=
  if rl.enabled = false then (true, rl)
  else
    match key with
    | none => (true, rl)
    | some k =>
        match get_entry_alloc rl k now allocOk with
        | (none, rl1) => (false, rl1)
        | (some e, rl1) =>
            let e1 : RateLimitEntry := { e with last_request := truncToInt now }
            let e2 := replenish_tokens rl1 e1 now
            if 1 ≤ e2.tokens then
              (true, { rl1 with entries :=
                (setEntry rl1.entries k { e2 with tokens := e2.tokens - 1 }) })
            else
              (false, { rl1 with entries := (setEntry rl1.entries k e2) })

theorem get_entry_eq_alloc_true {K : Type} [DecidableEq K]
    (rl : RateLimiter K) (k : K) (now : ℚ) :
    get_entry rl k now = get_entry_alloc rl k now true := by
  unfold get_entry get_entry_alloc
  cases hfind : findEntry rl.entries k <;> simp [hfind]

theorem rate_limiter_allow_eq_alloc_true {K : Type} [DecidableEq K]
    (rl : RateLimiter K) (key : Option K) (now : ℚ) :
    rate_limiter_allow rl key now = rate_limiter_allow_alloc rl key now true := by
  unfold rate_limiter_allow rate_limiter_allow_alloc
  by_cases hen : rl.enabled = false
  · rw [if_pos hen, if_pos hen]
  · rw [if_neg hen, if_neg hen]
    cases key with
    | none => rfl
    | some k => simp only [get_entry_eq_alloc_true]

/-! ### Claim C10 -/

/-- C10 counterexample: with an empty table (nowhere near capacity,
also after cleanup) and no entry for the key — so no token count to
exhaust — an entry-allocation failure still makes `rate_limiter_allow`
deny; denial does not only arise from token exhaustion or a full
table. -/
theorem C10_counterexample :
    (rate_limiter_allow_alloc (⟨[], 1, 5, true⟩ : RateLimiter ℕ)
        (some 0) 0 false).1 = false ∧
    (⟨[], 1, 5, true⟩ : RateLimiter ℕ).entries.length <
      RATE_LIMITER_MAX_ENTRIES ∧
    (rate_limiter_cleanup (⟨[], 1, 5, true⟩ : RateLimiter ℕ)
        (truncToInt 0)).entries.length < RATE_LIMITER_MAX_ENTRIES ∧
    findEntry (⟨[], 1, 5, true⟩ : RateLimiter ℕ).entries 0 = none := by
  refine ⟨by decide, by decide, by decide, by decide⟩

/-- C10 amended: `rate_limiter_allow` fails open — a limiter
initialised with `rate ≤ 0` is disabled and every allow succeeds with
the state untouched, and an IP that does not parse (`none` key) is
allowed with the state untouched; a denial can only arise from the
key's entry being missing with the table still full after cleanup or
the entry allocation failing, or from the replenished token count
being below 1. -/
theorem C10_amended_allow_fail_open (K : Type) [DecidableEq K] :
    (∀ rate burst : ℚ, rate ≤ 0 →
      (rate_limiter_init K rate burst).enabled = false ∧
      ∀ (key : Option K) (now : ℚ) (allocOk : Bool),
        rate_limiter_allow_alloc (rate_limiter_init K rate burst) key now
          allocOk = (true, rate_limiter_init K rate burst)) ∧
    (∀ (rl : RateLimiter K) (now : ℚ) (allocOk : Bool),
      rate_limiter_allow_alloc rl none now allocOk = (true, rl)) ∧
    (∀ (rl : RateLimiter K) (k : K) (now : ℚ) (allocOk : Bool),
      (rate_limiter_allow_alloc rl (some k) now allocOk).1 = false →
      rl.enabled = true ∧
      ((findEntry rl.entries k = none ∧
        ((rate_limiter_cleanup rl (truncToInt now)).entries.length ≥
           RATE_LIMITER_MAX_ENTRIES ∨ allocOk = false)) ∨
       (∃ e, (get_entry_alloc rl k now allocOk).1 = some e ∧
        (replenish_tokens (get_entry_alloc rl k now allocOk).2
          { e with last_request := truncToInt now } now).tokens < 1))) := by
  refine ⟨?_, ?_, ?_⟩
  · intro rate burst hrate
    have hinit : rate_limiter_init K rate burst =
        (⟨[], 0, 0, false⟩ : RateLimiter K) := by
      unfold rate_limiter_init
      rw [if_pos hrate]
    rw [hinit]
    exact ⟨rfl, fun key now allocOk => by
      unfold rate_limiter_allow_alloc
      rw [if_pos rfl]⟩
  · intro rl now allocOk
    unfold rate_limiter_allow_alloc
    by_cases h : rl.enabled = false
    · rw [if_pos h]
    · rw [if_neg h]
  · intro rl k now allocOk hfalse
    unfold rate_limiter_allow_alloc at hfalse
    by_cases h : rl.enabled = false
    · rw [if_pos h] at hfalse
      simp at hfalse
    · rw [if_neg h] at hfalse
      have hen : rl.enabled = true := by
        cases hv : rl.enabled
        · exact absurd hv h
        · rfl
      refine ⟨hen, ?_⟩
      rcases hget : get_entry_alloc rl k now allocOk with ⟨oe, rl1⟩
      simp only [hget] at hfalse
      cases oe with
      | none =>
          left
          unfold get_entry_alloc at hget
          rcases hfind : findEntry rl.entries k with _ | e
          · rw [hfind] at hget
            by_cases hfull : rl.entries.length ≥ RATE_LIMITER_MAX_ENTRIES
            · simp only [if_pos hfull] at hget
              by_cases hfull2 : (rate_limiter_cleanup rl
                  (truncToInt now)).entries.length ≥ RATE_LIMITER_MAX_ENTRIES
              · exact ⟨rfl, Or.inl hfull2⟩
              · simp only [if_neg hfull2] at hget
                cases hao : allocOk
                · exact ⟨rfl, Or.inr rfl⟩
                · rw [hao] at hget
                  simp at hget
            · simp only [if_neg hfull] at hget
              cases hao : allocOk
              · exact ⟨rfl, Or.inr rfl⟩
              · rw [hao] at hget
                simp at hget
          · rw [hfind] at hget
            simp at hget
      | some e =>
          right
          refine ⟨e, rfl, ?_⟩
          by_cases htok : 1 ≤ (replenish_tokens rl1
              { e with last_request := truncToInt now } now).tokens
          · simp only [if_pos htok] at hfalse
            simp at hfalse
          · exact not_le.mp htok

/-- Witness for the amended C10: a disabled limiter, an unparseable IP,
a denial by token exhaustion, and a denial by allocation failure. -/
theorem C10_amended_allow_fail_open_witness :
    ((rate_limiter_init ℕ 0 5).enabled = false ∧
     rate_limiter_allow_alloc (rate_limiter_init ℕ 0 5) (some 7) 3 true =
       (true, rate_limiter_init ℕ 0 5)) ∧
    (rate_limiter_allow_alloc (⟨[], 1, 1, true⟩ : RateLimiter ℕ) none 0
        false = (true, (⟨[], 1, 1, true⟩ : RateLimiter ℕ))) ∧
    ((⟨[(0, ⟨0, 0, 0⟩)], 1, 1, true⟩ : RateLimiter ℕ).enabled = true ∧
     ((findEntry ([(0, ⟨0, 0, 0⟩)] : List (ℕ × RateLimitEntry)) 0 = none ∧
       ((rate_limiter_cleanup (⟨[(0, ⟨0, 0, 0⟩)], 1, 1, true⟩ :
            RateLimiter ℕ) (truncToInt 0)).entries.length ≥
          RATE_LIMITER_MAX_ENTRIES ∨ (true : Bool) = false)) ∨
      (∃ e, (get_entry_alloc (⟨[(0, ⟨0, 0, 0⟩)], 1, 1, true⟩ :
            RateLimiter ℕ) 0 0 true).1 = some e ∧
        (replenish_tokens (get_entry_alloc (⟨[(0, ⟨0, 0, 0⟩)], 1, 1, true⟩ :
            RateLimiter ℕ) 0 0 true).2
          { e with last_request := truncToInt 0 } 0).tokens < 1))) ∧
    ((⟨[], 1, 5, true⟩ : RateLimiter ℕ).enabled = true ∧
     ((findEntry ([] : List (ℕ × RateLimitEntry)) 0 = none ∧
       ((rate_limiter_cleanup (⟨[], 1, 5, true⟩ : RateLimiter ℕ)
           (truncToInt 0)).entries.length ≥ RATE_LIMITER_MAX_ENTRIES ∨
        (false : Bool) = false)) ∨
      (∃ e, (get_entry_alloc (⟨[], 1, 5, true⟩ : RateLimiter ℕ) 0 0
          false).1 = some e ∧
        (replenish_tokens (get_entry_alloc (⟨[], 1, 5, true⟩ :
            RateLimiter ℕ) 0 0 false).2
          { e with last_request := truncToInt 0 } 0).tokens < 1))) :=
  ⟨⟨((C10_amended_allow_fail_open ℕ).1 0 5 (le_refl 0)).1,
    ((C10_amended_allow_fail_open ℕ).1 0 5 (le_refl 0)).2 (some 7) 3 true⟩,
   (C10_amended_allow_fail_open ℕ).2.1 ⟨[], 1, 1, true⟩ 0 false,
   (C10_amended_allow_fail_open ℕ).2.2 ⟨[(0, ⟨0, 0, 0⟩)], 1, 1, true⟩ 0 0
     true (by decide),
   (C10_amended_allow_fail_open ℕ).2.2 ⟨[], 1, 5, true⟩ 0 0 false
     (by decide)⟩
